import Mathlib

/-!
Shallow embedding of `link-checker.py`, a sitemap-driven broken-link audit
tool, together with proofs of the behavioural properties stated in its
design specification.

Modelling conventions:

* Network I/O (`requests.get`, `requests.head`) is modelled by oracle
  functions passed as parameters: a GET oracle `String → GetResult`, and a
  HEAD oracle `String → HeadResult`.  `urllib.parse.urljoin` and
  `urlparse(...).netloc` are library functions outside the repository, so
  they are kept abstract as parameters `joinUrl : String → String → String`
  and `netloc : String → String`.
* HTML parsing (BeautifulSoup) is external; a fetched page is therefore
  modelled as its parse result: the list of `<a>/<img>/<link>/<script>`
  tags (`soup.find_all(['a', 'img', 'link', 'script'])`) with the
  attributes the program reads.
* Elapsed wall-clock times (Python floats) are modelled as rationals.
* The duck-typed status field that is either an HTTP integer or the
  string sentinel `'ERR'` is modelled as the tagged type `Code`.
* Diagnostic lines printed to stderr are returned as an explicit second
  component, so that "emits a diagnostic" is provable.
-/

namespace LinkChecker

/-! ### Python string primitives used by the program -/

/-- Python's `pat in s` substring test on strings. -/
def hasSubstr (s pat : String) : Bool := decide (pat.data <:+: s.data)

/-- Python's `s.startswith(pre)`. -/
def pyStartsWith (s pre : String) : Bool := decide (pre.data <+: s.data)

/-- Python's `s.lower()` (ASCII case folding). -/
def pyLower (s : String) : String := String.mk (s.data.map Char.toLower)

/-- Python's `s.strip()`: remove leading and trailing whitespace. -/
def pyStrip (s : String) : String :=
  String.mk
    (((s.data.dropWhile Char.isWhitespace).reverse.dropWhile
        Char.isWhitespace).reverse)

/-- Accumulator loop for `splitlines`. -/
def splitlinesAux : List Char → List Char → List String
  | [], acc => if acc.isEmpty then [] else [String.mk acc.reverse]
  | '\r' :: '\n' :: rest, acc => String.mk acc.reverse :: splitlinesAux rest []
  | '\r' :: rest, acc => String.mk acc.reverse :: splitlinesAux rest []
  | '\n' :: rest, acc => String.mk acc.reverse :: splitlinesAux rest []
  | c :: rest, acc => splitlinesAux rest (c :: acc)

/-- Python's `str.splitlines()` for the line terminators `\n`, `\r`,
`\r\n`: terminators are removed and a trailing terminator produces no
final empty line. -/
def splitlines (s : String) : List String := splitlinesAux s.data []

/-- Python's `line.split(':', 1)[1]`: everything after the first colon
(the caller only uses it on lines known to contain a colon). -/
def afterFirstColon (s : String) : String :=
  String.mk ((s.data.dropWhile (fun c => c ≠ ':')).drop 1)

/-! ### Sitemap Locator: `find_sitemap` (source lines 15-37) -/

/-- Outcome of one `requests.get` call: a raised `requests.RequestException`,
or a response carrying a status code and a body (`resp.content` /
`resp.text` are both modelled by `body`). -/
inductive GetResult : Type where
  | failed : GetResult
  | ok (status : Nat) (body : String) : GetResult
deriving DecidableEq

/-- The three well-known sitemap locations probed by `find_sitemap`,
in probe order. -/
def sitemapCandidates (joinUrl : String → String → String) (url : String) :
    List String :=
  [joinUrl url "/sitemap.xml",
   joinUrl url "/sitemap_index.xml",
   joinUrl url "/sitemap/sitemap.xml"]

/-- The `for candidate in candidates` loop of `find_sitemap`: return the
first candidate answering 200 with a non-empty body; a network error on a
probe is absorbed and the next candidate is tried. -/
def tryCandidates (get : String → GetResult) : List String → Option String
  | [] => none
  | c :: rest =>
    match get c with
    | .failed => tryCandidates get rest
    | .ok status body =>
      if status = 200 ∧ body ≠ "" then some c else tryCandidates get rest

/-- The robots.txt scan of `find_sitemap`: first line whose lowercasing
starts with `sitemap:` yields the text after its first colon, stripped. -/
def scanRobotsLines : List String → Option String
  | [] => none
  | line :: rest =>
    if pyStartsWith (pyLower line) "sitemap:" then
      some (pyStrip (afterFirstColon line))
    else scanRobotsLines rest

/-- `find_sitemap(url)`: probe the three well-known paths, then fall back
to the robots.txt `Sitemap:` directive; `none` models Python's `None`. -/
def find_sitemap (joinUrl : String → String → String)
    (get : String → GetResult) (url : String) : Option String :=
  match tryCandidates get (sitemapCandidates joinUrl url) with
  | some c => some c
  | none =>
    match get (joinUrl url "/robots.txt") with
    | .failed => none
    | .ok status body =>
      if status = 200 then scanRobotsLines (splitlines body) else none

/-- Spec-side predicate: a probe succeeded with HTTP 200 and a non-empty
body.  Used to restate the probe loop as a `find?`. -/
def probeOk (get : String → GetResult) (c : String) : Bool :=
  match get c with
  | .ok status body => status == 200 && !(body == "")
  | .failed => false

/-! ### Sitemap Resolver: `parse_sitemap` (source lines 39-67)

A well-formed acyclic sitemap universe is modelled as a tree.  Fetching a
sitemap URL either fails (any exception in the `try` block: network error,
`raise_for_status`, or `ET.fromstring` parse error) — constructor `.fail`
— or produces a document whose relevant children, in document order, are
`<sitemap>` entries and `<url>` entries.  An entry's payload is `some _`
exactly when the entry has a `<loc>` child with truthy (non-empty) text,
mirroring `if loc is not None and loc.text`; a `<sitemap>` entry's payload
is the tree fetched from its `<loc>` URL. -/

inductive SitemapTree : Type where
  | fail : SitemapTree
  | node : List (Option SitemapTree ⊕ Option String) → SitemapTree

/-- One document-order entry of a sitemap document: `Sum.inl` is a
`<sitemap>` entry (payload: the tree its `<loc>` resolves to), `Sum.inr`
is a `<url>` entry (payload: its `<loc>` text). -/
abbrev SitemapEntry := Option SitemapTree ⊕ Option String

/-- The second loop of `parse_sitemap`: collect `<url><loc>` texts in
document order. -/
def urlPart (es : List SitemapEntry) : List String :=
  es.filterMap (fun e => match e with | .inr (some s) => some s | _ => none)

mutual
/-- `parse_sitemap(sitemap_url)`: a failed fetch/parse returns `[]`;
otherwise every `<sitemap>` entry is recursively expanded (first loop)
and then the document's own `<url><loc>` entries are appended
(second loop). -/
def parse_sitemap : SitemapTree → List String
  | .fail => []
  | .node es => smPart es ++ urlPart es

/-- The first loop of `parse_sitemap`: `urls.extend(parse_sitemap(loc.text))`
for each `<sitemap>` entry with a truthy `<loc>`. -/
def smPart : List SitemapEntry → List String
  | [] => []
  | .inl (some t) :: rest => parse_sitemap t ++ smPart rest
  | .inl none :: rest => smPart rest
  | .inr _ :: rest => smPart rest
end

mutual
/-- Spec-side count: the number of leaf `<url><loc>` entries reachable
through the `<sitemap>` branches of a tree (a failed branch contributes
zero). -/
def leafUrlCount : SitemapTree → Nat
  | .fail => 0
  | .node es => entriesUrlCount es

/-- Spec-side count over a document's entries. -/
def entriesUrlCount : List SitemapEntry → Nat
  | [] => 0
  | .inl (some t) :: r => leafUrlCount t + entriesUrlCount r
  | .inl none :: r => entriesUrlCount r
  | .inr (some _) :: r => 1 + entriesUrlCount r
  | .inr none :: r => entriesUrlCount r
end

/-- Discriminator: is this entry a `<sitemap>` entry? -/
def isSmEntry : SitemapEntry → Bool
  | .inl _ => true
  | .inr _ => false

/-! ### Link Extractor & Verifier: `check_links` (source lines 69-120) -/

/-- The four tag kinds enumerated by
`soup.find_all(['a', 'img', 'link', 'script'])`. -/
inductive TagName : Type where
  | a : TagName
  | img : TagName
  | link : TagName
  | script : TagName
deriving DecidableEq

/-- A parsed tag with the attributes the program reads.  `rel` is the
token list BeautifulSoup returns for the multi-valued `rel` attribute
(`none` when absent). -/
structure Tag : Type where
  name : TagName
  rel : Option (List String)
  href : Option String
  src : Option String
deriving DecidableEq

/-- The duck-typed status: an HTTP integer, or the `'ERR'` string
sentinel stored when the HEAD request raised. -/
inductive Code : Type where
  | http (n : Nat) : Code
  | err : Code
deriving DecidableEq

/-- A bad-link record as built on source lines 109-114. -/
structure Finding : Type where
  code : Code
  page : String
  broken_link : String
  response_time : Option Rat
deriving DecidableEq

/-- Outcome of `requests.head(full_link, ...)`: a normal response with
status and measured elapsed time, an `SSLError`, or any other
`requests.RequestException` (carrying its message). -/
inductive HeadResult : Type where
  | ok (status : Nat) (elapsed : Rat) : HeadResult
  | sslError : HeadResult
  | netError (msg : String) : HeadResult
deriving DecidableEq

/-- Outcome of the page's own `requests.get`: a raised
`requests.RequestException`, or a response with status code and parsed
tag list. -/
inductive PageFetch : Type where
  | failed : PageFetch
  | fetched (status : Nat) (tags : List Tag) : PageFetch

/-- Source lines 79-84: skip `<link>` tags whose truthy `rel` contains
`preconnect` or `dns-prefetch`. -/
def relSkip (t : Tag) : Bool :=
  t.name == TagName.link &&
    (match t.rel with
     | some rel => !rel.isEmpty &&
         (rel.contains "preconnect" || rel.contains "dns-prefetch")
     | none => false)

/-- Source line 85: `attr = 'href' if tag.name in ['a', 'link'] else 'src'`,
then `tag.get(attr)`. -/
def linkAttr (t : Tag) : Option String :=
  match t.name with
  | .a | .link => t.href
  | .img | .script => t.src

/-- Source lines 86-87: the raw attribute value, `none` when absent or
empty (`if link:` treats the empty string as falsy). -/
def rawLink (t : Tag) : Option String :=
  match linkAttr t with
  | some s => if s.data.isEmpty then none else some s
  | none => none

/-- The duck-typed `code != 200` test of source line 108: the `'ERR'`
sentinel is never equal to the integer 200. -/
def codeIsNot200 : Code → Bool
  | .http n => n != 200
  | .err => true

/-- `elapsed is not None and elapsed > 10` of source line 108. -/
def elapsedExceeds : Option Rat → Bool
  | some v => decide (v > 10)
  | none => false

/-- The stderr diagnostic of source line 107. -/
def errDiag (full_link page_url msg : String) : String :=
  s!"Error checking link {full_link} on page {page_url}: {msg}"

/-- Source lines 108-117, shared by the normal-response and error paths:
append a finding when the status is not 200 or the elapsed time exceeds
10; `diags` carries any stderr diagnostic already produced. -/
def recordResult (code : Code) (elapsed : Option Rat) (diags : List String)
    (page_url full_link : String) : List Finding × List String :=
  if codeIsNot200 code || elapsedExceeds elapsed then
    ([⟨code, page_url, full_link, elapsed⟩], diags)
  else ([], diags)

/-- The body of the `for tag in soup.find_all(...)` loop (source lines
77-117) for one tag: returns the findings and stderr diagnostics this
tag contributes. -/
def check_one_link (joinUrl : String → String → String)
    (head : String → HeadResult) (page_url : String) (t : Tag) :
    List Finding × List String :=
  if relSkip t then ([], [])
  else
    match rawLink t with
    | none => ([], [])
    | some link =>
      if !(pyStartsWith link "http://" || pyStartsWith link "https://") then
        ([], [])
      else if hasSubstr link "xmlrpc.php" then ([], [])
      else
        let full_link := joinUrl page_url link
        match head full_link with
        | .ok status elapsed =>
            recordResult (.http status) (some elapsed) [] page_url full_link
        | .sslError => ([], [])
        | .netError msg =>
            recordResult .err none [errDiag full_link page_url msg]
              page_url full_link

/-- `check_links(page_url)` (source lines 69-120): an unreachable or
non-200 page contributes nothing; otherwise each tag is processed in
document order.  First component: the returned `bad_links`; second:
the stderr diagnostics. -/
def check_links (joinUrl : String → String → String)
    (head : String → HeadResult) (page_url : String) (page : PageFetch) :
    List Finding × List String :=
  match page with
  | .failed => ([], [])
  | .fetched status tags =>
    if status ≠ 200 then ([], [])
    else
      (tags.flatMap (fun t => (check_one_link joinUrl head page_url t).1),
       tags.flatMap (fun t => (check_one_link joinUrl head page_url t).2))

/-! ### Fallback Crawler: `crawl_site` (source lines 122-154) -/

/-- Outcome of a crawl fetch: a raised `requests.RequestException`, or a
response with status, `Content-Type` header value, and the `href` values
of the page's `<a>` tags in document order (`none` for an `<a>` without
an `href`). -/
inductive CrawlFetch : Type where
  | failed : CrawlFetch
  | ok (status : Nat) (ctype : String) (anchors : List (Option String)) :
      CrawlFetch

/-- The body of the inner `for tag in soup.find_all('a')` loop (source
lines 144-151): given the queue so far and one anchor's href, resolve a
truthy href against the current page and enqueue it only if its host
equals the start host and it is in neither `visited` nor the queue. -/
def enqueueStep (netloc : String → String) (joinUrl : String → String → String)
    (domain url : String) (visited' : List String)
    (q : List String) (a : Option String) : List String :=
  match a with
  | none => q
  | some l =>
    if l.data.isEmpty then q
    else
      let abs := joinUrl url l
      if netloc abs = domain ∧ abs ∉ visited' ∧ abs ∉ q then q ++ [abs]
      else q

/-- The `while to_visit and len(found_pages) < max_pages` loop of
`crawl_site`, with `visited`, `to_visit` and `found_pages` explicit.
The fold over `anchors` is the inner `for tag in soup.find_all('a')`
loop. -/
def crawl_loop (get : String → CrawlFetch) (domain : String)
    (netloc : String → String) (joinUrl : String → String → String)
    (maxPages : Nat) (visited : List String) (toVisit : List String)
    (found : List String) : List String :=
  match toVisit with
  | [] => found
  | url :: rest =>
    if found.length < maxPages then
      if url ∈ visited then
        crawl_loop get domain netloc joinUrl maxPages visited rest found
      else
        let visited' := url :: visited
        match get url with
        | .failed =>
            crawl_loop get domain netloc joinUrl maxPages visited' rest found
        | .ok status ctype anchors =>
          if status ≠ 200 then
            crawl_loop get domain netloc joinUrl maxPages visited' rest found
          else if ¬ (hasSubstr ctype "html" = true) then
            crawl_loop get domain netloc joinUrl maxPages visited' rest found
          else
            let found' := found ++ [url]
            let rest' :=
              anchors.foldl (enqueueStep netloc joinUrl domain url visited') rest
            crawl_loop get domain netloc joinUrl maxPages visited' rest' found'
    else found
termination_by (maxPages - found.length, toVisit.length)
decreasing_by
  all_goals simp_wf
  any_goals (apply Prod.Lex.right; omega)
  all_goals (apply Prod.Lex.left; omega)

/-- `crawl_site(start_url, max_pages)`: seed the queue with the start URL
and run the loop; `domain = urlparse(start_url).netloc`. -/
def crawl_site (get : String → CrawlFetch) (netloc : String → String)
    (joinUrl : String → String → String) (start_url : String)
    (maxPages : Nat) : List String :=
  crawl_loop get (netloc start_url) netloc joinUrl maxPages [] [start_url] []

/-! ### Concurrency Orchestrator: `main` (source lines 171-176)

The worker pool is modelled by its observable behaviour: each page `i`
yields the task result `check_links(pages[i])`; the tasks finish in an
arbitrary order (`completed` is any permutation of the indexed results),
and `executor.map`'s iterator yields results in input order, which the
aggregation loop then flattens. -/

/-- The indexed task results, input order, starting at index `i`. -/
def tasksFrom (i : Nat) : List α → List (Nat × α)
  | [] => []
  | x :: xs => (i, x) :: tasksFrom (i + 1) xs

/-- The `executor.map` iterator: yield the results of tasks `i`,
`i+1`, …, in input order, looking each up in the completed-task list;
`none` if some task is missing. -/
def poolYield (completed : List (Nat × α)) (i : Nat) : Nat → Option (List α)
  | 0 => some []
  | n + 1 =>
    match completed.lookup i with
    | none => none
    | some r =>
      match poolYield completed (i + 1) n with
      | none => none
      | some rs => some (r :: rs)

/-- The aggregation loop `for bad_links in results:
all_bad_links.extend(bad_links)` over the pool's yielded sequence. -/
def run_all (completed : List (Nat × List Finding)) (numPages : Nat) :
    Option (List Finding) :=
  (poolYield completed 0 numPages).map List.flatten

/-- Spec-side sequential reference: map `check_links` over the pages in
order and flatten. -/
def run_all_sequential (f : String → List Finding) (pages : List String) :
    List Finding :=
  (pages.map f).flatten

/-! ## Sitemap Resolver lemmas -/

mutual
theorem parse_sitemap_length : ∀ t, (parse_sitemap t).length = leafUrlCount t
  | .fail => by simp [parse_sitemap, leafUrlCount]
  | .node es => by
      rw [parse_sitemap, List.length_append, leafUrlCount,
        ← smPart_urlPart_length es]

theorem smPart_urlPart_length :
    ∀ es, (smPart es).length + (urlPart es).length = entriesUrlCount es
  | [] => by simp [smPart, urlPart, entriesUrlCount]
  | .inl (some t) :: rest => by
      simp only [smPart, entriesUrlCount, urlPart, List.filterMap_cons,
        List.length_append]
      rw [parse_sitemap_length t, ← smPart_urlPart_length rest]
      simp [urlPart]
      omega
  | .inl none :: rest => by
      simp only [smPart, entriesUrlCount, urlPart, List.filterMap_cons]
      rw [← smPart_urlPart_length rest]
      simp [urlPart]
  | .inr (some s) :: rest => by
      simp only [smPart, entriesUrlCount, urlPart, List.filterMap_cons]
      rw [← smPart_urlPart_length rest]
      simp [urlPart]
      omega
  | .inr none :: rest => by
      simp only [smPart, entriesUrlCount, urlPart, List.filterMap_cons]
      rw [← smPart_urlPart_length rest]
      simp [urlPart]
end

theorem smPart_append (es₁ es₂ : List SitemapEntry) :
    smPart (es₁ ++ es₂) = smPart es₁ ++ smPart es₂ := by
  induction es₁ with
  | nil => simp [smPart]
  | cons e rest ih =>
    match e with
    | .inl (some t) => simp [smPart, ih]
    | .inl none => simp [smPart, ih]
    | .inr x => simp [smPart, ih]

theorem urlPart_append (es₁ es₂ : List SitemapEntry) :
    urlPart (es₁ ++ es₂) = urlPart es₁ ++ urlPart es₂ := by
  simp [urlPart]

theorem smPart_filter (es : List SitemapEntry) :
    smPart (es.filter isSmEntry) = smPart es := by
  induction es with
  | nil => simp [smPart]
  | cons e rest ih =>
    match e with
    | .inl x =>
      cases x <;> simp [List.filter, isSmEntry, smPart, ih]
    | .inr x => simp [List.filter, isSmEntry, smPart, ih]

theorem urlPart_filter (es : List SitemapEntry) :
    urlPart (es.filter (fun e => !isSmEntry e)) = urlPart es := by
  induction es with
  | nil => simp [urlPart]
  | cons e rest ih =>
    match e with
    | .inl x => simpa [List.filter, isSmEntry, urlPart] using ih
    | .inr x =>
      cases x <;>
        simpa [List.filter, isSmEntry, urlPart, List.filterMap_cons] using ih

/-- C2: for every well-formed acyclic sitemap tree, the resolver's output
(a) has exactly as many pages as there are leaf `<url><loc>` entries
reachable through the `<sitemap>` branches, (b) is the in-document-order
concatenation of the expanded `<sitemap>` branches followed by the
document's own `<url>` entries in document order, and (c) a branch whose
fetch or parse fails contributes an empty sequence while its sibling
branches still contribute their pages. -/
theorem claim2_resolver_flattening :
    (∀ t : SitemapTree, (parse_sitemap t).length = leafUrlCount t)
    ∧ (∀ es : List SitemapEntry,
        parse_sitemap (.node es) = smPart es ++ urlPart es)
    ∧ (∀ pre post : List SitemapEntry,
        parse_sitemap (.node (pre ++ Sum.inl (some SitemapTree.fail) :: post))
          = parse_sitemap (.node (pre ++ post))) := by
  refine ⟨parse_sitemap_length, fun es => by rw [parse_sitemap], ?_⟩
  intro pre post
  rw [parse_sitemap, parse_sitemap]
  have h1 : smPart (pre ++ Sum.inl (some SitemapTree.fail) :: post)
      = smPart pre ++ smPart post := by
    rw [show (Sum.inl (some SitemapTree.fail) :: post : List SitemapEntry)
        = [Sum.inl (some SitemapTree.fail)] ++ post from rfl,
      smPart_append, smPart_append]
    simp [smPart, parse_sitemap]
  have h2 : urlPart (pre ++ Sum.inl (some SitemapTree.fail) :: post)
      = urlPart pre ++ urlPart post := by
    simp [urlPart]
  rw [h1, h2, smPart_append, urlPart_append]

/-- C9: within a single sitemap document that mixes `<sitemap>` entries
and `<url>` entries, all pages coming from expanding the `<sitemap>`
entries are emitted before any of the document's own `<url>` locations,
whatever the relative order of the entries in the document: the output
is determined by the two kind-filtered sub-sequences alone. -/
theorem claim9_sitemaps_expanded_first :
    ∀ es : List SitemapEntry,
      parse_sitemap (.node es)
        = smPart (es.filter isSmEntry)
          ++ urlPart (es.filter (fun e => !isSmEntry e)) := by
  intro es
  rw [parse_sitemap, smPart_filter, urlPart_filter]

/-! ## Sitemap Locator lemmas -/

theorem tryCandidates_eq_find (get : String → GetResult) :
    ∀ cs : List String, tryCandidates get cs = cs.find? (probeOk get) := by
  intro cs
  induction cs with
  | nil => simp [tryCandidates]
  | cons c rest ih =>
    cases hget : get c with
    | failed =>
      simp only [tryCandidates, hget]
      rw [ih, List.find?_cons_of_neg]
      simp [probeOk, hget]
    | ok status body =>
      by_cases hok : status = 200 ∧ body ≠ ""
      · simp only [tryCandidates, hget]
        rw [if_pos hok, List.find?_cons_of_pos]
        simp [probeOk, hget, hok.1, hok.2]
      · simp only [tryCandidates, hget]
        rw [if_neg hok, ih, List.find?_cons_of_neg]
        simp only [probeOk, hget]
        by_cases h200 : status = 200
        · simp only [h200, not_and, ne_eq, not_not] at hok
          simp [h200, hok]
        · simp [h200]

theorem scanRobotsLines_eq_find :
    ∀ ls : List String,
      scanRobotsLines ls
        = (ls.find? (fun l => pyStartsWith (pyLower l) "sitemap:")).map
            (fun l => pyStrip (afterFirstColon l)) := by
  intro ls
  induction ls with
  | nil => simp [scanRobotsLines]
  | cons line rest ih =>
    rw [scanRobotsLines]
    by_cases h : pyStartsWith (pyLower line) "sitemap:" = true
    · rw [if_pos h, List.find?_cons_of_pos]
      · simp
      · simpa using h
    · rw [if_neg h, ih, List.find?_cons_of_neg]
      simpa using h

/-- C5: `find_sitemap` returns the first of the three well-known
candidates (in probe order) that answers HTTP 200 with a non-empty body,
probing no further; if none does, it fetches `/robots.txt` and, on a 200
response, returns the whitespace-stripped text after the colon of the
first line whose lowercasing starts with `sitemap:`; in every other case
(robots fetch error, non-200 robots response, no matching line) it
returns `none`, every probe's network error being absorbed as a failure
of that probe only. -/
theorem claim5_locator_probe_order (joinUrl : String → String → String)
    (get : String → GetResult) (url : String) :
    find_sitemap joinUrl get url =
      (match (sitemapCandidates joinUrl url).find? (probeOk get) with
       | some c => some c
       | none =>
         match get (joinUrl url "/robots.txt") with
         | .failed => none
         | .ok status body =>
           if status = 200 then
             ((splitlines body).find?
                 (fun l => pyStartsWith (pyLower l) "sitemap:")).map
               (fun l => pyStrip (afterFirstColon l))
           else none) := by
  rw [find_sitemap, tryCandidates_eq_find]
  cases (sitemapCandidates joinUrl url).find? (probeOk get) with
  | some c => rfl
  | none =>
    simp only
    cases get (joinUrl url "/robots.txt") with
    | failed => rfl
    | ok status body =>
      dsimp only
      by_cases h : status = 200
      · rw [if_pos h, if_pos h, scanRobotsLines_eq_find]
      · rw [if_neg h, if_neg h]

/-! ## Link Extractor & Verifier lemmas -/

theorem check_links_fetched_ok (joinUrl : String → String → String)
    (head : String → HeadResult) (page_url : String) (tags : List Tag) :
    check_links joinUrl head page_url (.fetched 200 tags)
      = (tags.flatMap (fun t => (check_one_link joinUrl head page_url t).1),
         tags.flatMap (fun t => (check_one_link joinUrl head page_url t).2)) := by
  simp [check_links]

theorem check_one_link_skip_rel (joinUrl : String → String → String)
    (head : String → HeadResult) (page_url : String) (t : Tag)
    (hskip : relSkip t = true) :
    check_one_link joinUrl head page_url t = ([], []) := by
  simp [check_one_link, hskip]

theorem check_one_link_pass (joinUrl : String → String → String)
    (head : String → HeadResult) (page_url : String) (t : Tag) (link : String)
    (hrel : relSkip t = false)
    (hraw : rawLink t = some link)
    (hscheme : (pyStartsWith link "http://" || pyStartsWith link "https://")
      = true)
    (hxml : hasSubstr link "xmlrpc.php" = false) :
    check_one_link joinUrl head page_url t
      = (match head (joinUrl page_url link) with
         | .ok status elapsed =>
             recordResult (.http status) (some elapsed) [] page_url
               (joinUrl page_url link)
         | .sslError => ([], [])
         | .netError msg =>
             recordResult .err none
               [errDiag (joinUrl page_url link) page_url msg] page_url
               (joinUrl page_url link)) := by
  unfold check_one_link
  rw [hrel, hraw]
  dsimp only
  rw [hscheme, hxml]
  simp

theorem check_one_link_skip_scheme (joinUrl : String → String → String)
    (head : String → HeadResult) (page_url : String) (t : Tag) (link : String)
    (hrel : relSkip t = false)
    (hraw : rawLink t = some link)
    (hscheme : (pyStartsWith link "http://" || pyStartsWith link "https://")
      = false) :
    check_one_link joinUrl head page_url t = ([], []) := by
  unfold check_one_link
  rw [hrel, hraw]
  dsimp only
  rw [hscheme]
  simp

theorem check_one_link_skip_xmlrpc (joinUrl : String → String → String)
    (head : String → HeadResult) (page_url : String) (t : Tag) (link : String)
    (hrel : relSkip t = false)
    (hraw : rawLink t = some link)
    (hscheme : (pyStartsWith link "http://" || pyStartsWith link "https://")
      = true)
    (hxml : hasSubstr link "xmlrpc.php" = true) :
    check_one_link joinUrl head page_url t = ([], []) := by
  unfold check_one_link
  rw [hrel, hraw]
  dsimp only
  rw [hscheme, hxml]
  simp

/-! ## Link Extractor & Verifier claims -/

/-- C1: for a link that passes the tag/scheme/xmlrpc filters and whose
HEAD request completes with status `s` and elapsed time `e`, `check_links`
processes the page's tags in order, and the link contributes a Finding if
and only if `s ≠ 200` or `e > 10`; the emitted Finding carries exactly
the response status, the source page URL, the resolved absolute URL, and
the measured elapsed time. -/
theorem claim1_finding_iff
    (joinUrl : String → String → String) (head : String → HeadResult)
    (page_url : String) (tags : List Tag) (t : Tag) (link : String)
    (s : Nat) (e : Rat)
    (hrel : relSkip t = false)
    (hraw : rawLink t = some link)
    (hscheme : (pyStartsWith link "http://" || pyStartsWith link "https://")
      = true)
    (hxml : hasSubstr link "xmlrpc.php" = false)
    (hhead : head (joinUrl page_url link) = HeadResult.ok s e) :
    (check_links joinUrl head page_url (.fetched 200 tags)).1
        = tags.flatMap (fun tg => (check_one_link joinUrl head page_url tg).1)
      ∧ (check_one_link joinUrl head page_url t).1
        = (if s ≠ 200 ∨ 10 < e
           then [⟨Code.http s, page_url, joinUrl page_url link, some e⟩]
           else []) := by
  constructor
  · rw [check_links_fetched_ok]
  · rw [check_one_link_pass joinUrl head page_url t link hrel hraw hscheme
      hxml, hhead]
    rcases Decidable.em (s = 200) with h200 | h200 <;>
      rcases Decidable.em ((10 : Rat) < e) with hgt | hgt <;>
      simp [recordResult, codeIsNot200, elapsedExceeds, h200, hgt]

/-- Witness for C1 at a concrete 404 image link. -/
theorem claim1_finding_iff_witness :
    (check_links (fun _ l => l) (fun _ => HeadResult.ok 404 2) "http://p/"
        (.fetched 200 [⟨TagName.img, none, none, some "http://x/m.png"⟩])).1
      = [(⟨TagName.img, none, none, some "http://x/m.png"⟩ : Tag)].flatMap
          (fun tg => (check_one_link (fun _ l => l)
            (fun _ => HeadResult.ok 404 2) "http://p/" tg).1)
    ∧ (check_one_link (fun _ l => l) (fun _ => HeadResult.ok 404 2)
          "http://p/" ⟨TagName.img, none, none, some "http://x/m.png"⟩).1
      = (if (404 : Nat) ≠ 200 ∨ (10 : Rat) < 2
         then [⟨Code.http 404, "http://p/", "http://x/m.png", some 2⟩]
         else []) :=
  claim1_finding_iff (fun _ l => l) (fun _ => HeadResult.ok 404 2) "http://p/"
    [⟨TagName.img, none, none, some "http://x/m.png"⟩]
    ⟨TagName.img, none, none, some "http://x/m.png"⟩ "http://x/m.png" 404 2
    (by decide) (by decide) (by decide) (by decide) rfl

/-- C3: network failures never escape `check_links`: a failed page fetch
or a non-200 page status yields no findings and no diagnostics; an
SSL/TLS failure on a link's HEAD check is silently skipped (no finding,
no diagnostic); any other network failure on a link's HEAD check yields
exactly one Finding with the `'ERR'` sentinel and no response time,
together with a stderr diagnostic. -/
theorem claim3_network_failures
    (joinUrl : String → String → String) (head : String → HeadResult)
    (page_url : String) (s : Nat) (tags : List Tag)
    (t : Tag) (link msg : String)
    (hs : s ≠ 200)
    (hrel : relSkip t = false)
    (hraw : rawLink t = some link)
    (hscheme : (pyStartsWith link "http://" || pyStartsWith link "https://")
      = true)
    (hxml : hasSubstr link "xmlrpc.php" = false) :
    check_links joinUrl head page_url PageFetch.failed = ([], [])
    ∧ check_links joinUrl head page_url (.fetched s tags) = ([], [])
    ∧ (head (joinUrl page_url link) = HeadResult.sslError →
        check_links joinUrl head page_url (.fetched 200 [t]) = ([], []))
    ∧ (head (joinUrl page_url link) = HeadResult.netError msg →
        check_links joinUrl head page_url (.fetched 200 [t])
          = ([⟨Code.err, page_url, joinUrl page_url link, none⟩],
             [errDiag (joinUrl page_url link) page_url msg])) := by
  refine ⟨rfl, ?_, ?_, ?_⟩
  · simp [check_links, hs]
  · intro hssl
    rw [check_links_fetched_ok]
    simp only [List.flatMap_cons, List.flatMap_nil, List.append_nil]
    rw [check_one_link_pass joinUrl head page_url t link hrel hraw hscheme
      hxml, hssl]
  · intro hnet
    rw [check_links_fetched_ok]
    simp only [List.flatMap_cons, List.flatMap_nil, List.append_nil]
    rw [check_one_link_pass joinUrl head page_url t link hrel hraw hscheme
      hxml, hnet]
    simp [recordResult, codeIsNot200, elapsedExceeds]

/-- Witness for C3 at a concrete failing HEAD request. -/
theorem claim3_network_failures_witness :
    check_links (fun _ l => l) (fun _ => HeadResult.netError "boom")
        "http://p/" (.fetched 200 [⟨TagName.img, none, none, some "http://x/a.png"⟩])
      = ([⟨Code.err, "http://p/", "http://x/a.png", none⟩],
         [errDiag "http://x/a.png" "http://p/" "boom"]) :=
  (claim3_network_failures (fun _ l => l) (fun _ => HeadResult.netError "boom")
      "http://p/" 404 [] ⟨TagName.img, none, none, some "http://x/a.png"⟩
      "http://x/a.png" "boom" (by decide) (by decide) (by decide) (by decide)
      (by decide)).2.2.2 rfl

/-- C4: `check_links` never emits a Finding for a `<link>` tag whose
`rel` includes `preconnect` or `dns-prefetch`, never for a reference
whose raw value does not begin with `http://` or `https://`, and never
for a reference containing the substring `xmlrpc.php`; such candidates
are skipped before any request is issued, i.e. the result is empty for
every possible HEAD oracle. -/
theorem claim4_prefilters (joinUrl : String → String → String)
    (page_url : String) (t : Tag) :
    (∀ l : List String, t.name = TagName.link → t.rel = some l →
        ("preconnect" ∈ l ∨ "dns-prefetch" ∈ l) →
        ∀ head, check_links joinUrl head page_url (.fetched 200 [t]) = ([], []))
    ∧ (∀ link : String, rawLink t = some link →
        (pyStartsWith link "http://" || pyStartsWith link "https://") = false →
        ∀ head, check_links joinUrl head page_url (.fetched 200 [t]) = ([], []))
    ∧ (∀ link : String, rawLink t = some link →
        hasSubstr link "xmlrpc.php" = true →
        ∀ head, check_links joinUrl head page_url (.fetched 200 [t])
          = ([], [])) := by
  refine ⟨?_, ?_, ?_⟩
  · intro l hname hrl hmem head
    have hne : l ≠ [] := by
      intro h0
      subst h0
      simp at hmem
    have hskip : relSkip t = true := by
      simp only [relSkip, hname, hrl]
      simp [hne]
      exact hmem
    rw [check_links_fetched_ok]
    simp only [List.flatMap_cons, List.flatMap_nil, List.append_nil]
    rw [check_one_link_skip_rel joinUrl head page_url t hskip]
  · intro link hraw hscheme head
    rw [check_links_fetched_ok]
    simp only [List.flatMap_cons, List.flatMap_nil, List.append_nil]
    by_cases hskip : relSkip t = true
    · rw [check_one_link_skip_rel joinUrl head page_url t hskip]
    · have hrel : relSkip t = false := by simpa using hskip
      rw [check_one_link_skip_scheme joinUrl head page_url t link hrel hraw
        hscheme]
  · intro link hraw hxml head
    rw [check_links_fetched_ok]
    simp only [List.flatMap_cons, List.flatMap_nil, List.append_nil]
    by_cases hskip : relSkip t = true
    · rw [check_one_link_skip_rel joinUrl head page_url t hskip]
    · have hrel : relSkip t = false := by simpa using hskip
      by_cases hsch : (pyStartsWith link "http://"
          || pyStartsWith link "https://") = true
      · rw [check_one_link_skip_xmlrpc joinUrl head page_url t link hrel hraw
          hsch hxml]
      · have hsch' : (pyStartsWith link "http://"
            || pyStartsWith link "https://") = false := by simpa using hsch
        rw [check_one_link_skip_scheme joinUrl head page_url t link hrel hraw
          hsch']

/-- Witness for C4 at a preconnect link, a relative anchor, and an
xmlrpc.php reference. -/
theorem claim4_prefilters_witness :
    check_links (fun _ l => l) (fun _ => HeadResult.ok 404 2) "http://p/"
        (.fetched 200 [⟨TagName.link, some ["preconnect"],
          some "http://x/s.css", none⟩]) = ([], [])
    ∧ check_links (fun _ l => l) (fun _ => HeadResult.ok 404 2) "http://p/"
        (.fetched 200 [⟨TagName.a, none, some "/about", none⟩]) = ([], [])
    ∧ check_links (fun _ l => l) (fun _ => HeadResult.ok 404 2) "http://p/"
        (.fetched 200 [⟨TagName.a, none, some "http://x/xmlrpc.php",
          none⟩]) = ([], []) :=
  ⟨(claim4_prefilters (fun _ l => l) "http://p/"
      ⟨TagName.link, some ["preconnect"], some "http://x/s.css", none⟩).1
      ["preconnect"] rfl rfl (Or.inl (by decide)) _,
   (claim4_prefilters (fun _ l => l) "http://p/"
      ⟨TagName.a, none, some "/about", none⟩).2.1
      "/about" (by decide) (by decide) _,
   (claim4_prefilters (fun _ l => l) "http://p/"
      ⟨TagName.a, none, some "http://x/xmlrpc.php", none⟩).2.2
      "http://x/xmlrpc.php" (by decide) (by decide) _⟩

/-- C10: `check_links` verifies the `href` of every `<link>` tag whose
`rel` does not include `preconnect` or `dns-prefetch` — e.g.
`rel="canonical"` — so a Finding can arise from a `<link>` tag that is
not a stylesheet reference. -/
theorem claim10_nonstylesheet_link_checked
    (joinUrl : String → String → String) (head : String → HeadResult)
    (page_url : String) (rel : List String) (link : String)
    (s : Nat) (e : Rat)
    (hpre : "preconnect" ∉ rel) (hdns : "dns-prefetch" ∉ rel)
    (hne : link ≠ "")
    (hscheme : (pyStartsWith link "http://" || pyStartsWith link "https://")
      = true)
    (hxml : hasSubstr link "xmlrpc.php" = false)
    (hhead : head (joinUrl page_url link) = HeadResult.ok s e)
    (hs : s ≠ 200) :
    (check_links joinUrl head page_url
        (.fetched 200 [⟨TagName.link, some rel, some link, none⟩])).1
      = [⟨Code.http s, page_url, joinUrl page_url link, some e⟩] := by
  have hskip : relSkip ⟨TagName.link, some rel, some link, none⟩ = false := by
    simp [relSkip, hpre, hdns]
  have hdata : link.data.isEmpty = false := by
    rcases link with ⟨cs⟩
    cases cs with
    | nil => exact absurd rfl hne
    | cons c cs => rfl
  have hraw : rawLink ⟨TagName.link, some rel, some link, none⟩ = some link := by
    simp [rawLink, linkAttr, hdata]
  rw [check_links_fetched_ok]
  simp only [List.flatMap_cons, List.flatMap_nil, List.append_nil]
  rw [check_one_link_pass joinUrl head page_url _ link hskip hraw hscheme
    hxml, hhead]
  simp [recordResult, codeIsNot200, elapsedExceeds, hs]

/-- Witness for C10 at a concrete `rel="canonical"` link answering 404. -/
theorem claim10_nonstylesheet_link_checked_witness :
    (check_links (fun _ l => l) (fun _ => HeadResult.ok 404 3) "http://p/"
        (.fetched 200 [⟨TagName.link, some ["canonical"],
          some "http://x/c", none⟩])).1
      = [⟨Code.http 404, "http://p/", "http://x/c", some 3⟩] :=
  claim10_nonstylesheet_link_checked (fun _ l => l)
    (fun _ => HeadResult.ok 404 3) "http://p/" ["canonical"] "http://x/c"
    404 3 (by decide) (by decide) (by decide) (by decide) (by decide) rfl
    (by decide)

/-! ## Fallback Crawler lemmas -/

theorem mem_foldl_enqueue (netloc : String → String)
    (joinUrl : String → String → String) (domain url : String)
    (visited' : List String) :
    ∀ (anchors : List (Option String)) (q : List String) (u : String),
      u ∈ anchors.foldl (enqueueStep netloc joinUrl domain url visited') q →
      u ∈ q ∨ netloc u = domain := by
  intro anchors
  induction anchors with
  | nil => intro q u hu; exact Or.inl hu
  | cons a rest ih =>
    intro q u hu
    rw [List.foldl_cons] at hu
    rcases ih _ u hu with hq | hd
    · match a with
      | none => exact Or.inl hq
      | some l =>
        simp only [enqueueStep] at hq
        by_cases hemp : l.data.isEmpty = true
        · rw [if_pos hemp] at hq
          exact Or.inl hq
        · rw [if_neg hemp] at hq
          by_cases hcond : netloc (joinUrl url l) = domain
              ∧ joinUrl url l ∉ visited' ∧ joinUrl url l ∉ q
          · rw [if_pos hcond] at hq
            rcases List.mem_append.mp hq with h1 | h1
            · exact Or.inl h1
            · right
              rw [List.mem_singleton.mp h1]
              exact hcond.1
          · rw [if_neg hcond] at hq
            exact Or.inl hq
    · exact Or.inr hd

theorem crawl_loop_netloc (get : String → CrawlFetch) (domain : String)
    (netloc : String → String) (joinUrl : String → String → String)
    (maxPages : Nat) :
    ∀ (visited toVisit found : List String),
      (∀ u ∈ toVisit, netloc u = domain) →
      (∀ u ∈ found, netloc u = domain) →
      ∀ u ∈ crawl_loop get domain netloc joinUrl maxPages visited toVisit
          found, netloc u = domain := by
  intro visited toVisit found
  induction visited, toVisit, found using crawl_loop.induct get domain netloc
      joinUrl maxPages with
  | case1 visited found =>
    intro _ hf
    rw [crawl_loop]
    exact hf
  | case2 visited found url rest hlt hvis ih =>
    intro hq hf
    rw [crawl_loop]
    simp only [if_pos hlt, if_pos hvis]
    exact ih (fun u hu => hq u (List.mem_cons_of_mem url hu)) hf
  | case3 visited found url rest hlt hvis v1 hget ih =>
    intro hq hf
    rw [crawl_loop]
    simp only [if_pos hlt, if_neg hvis, hget]
    exact ih (fun u hu => hq u (List.mem_cons_of_mem url hu)) hf
  | case4 visited found url rest hlt hvis v1 status ctype anchors hget h200 ih =>
    intro hq hf
    rw [crawl_loop]
    simp only [if_pos hlt, if_neg hvis, hget, if_pos h200]
    exact ih (fun u hu => hq u (List.mem_cons_of_mem url hu)) hf
  | case5 visited found url rest hlt hvis v1 status ctype anchors hget h200
      hhtml ih =>
    intro hq hf
    rw [crawl_loop]
    simp only [if_pos hlt, if_neg hvis, hget, if_neg h200, if_pos hhtml]
    exact ih (fun u hu => hq u (List.mem_cons_of_mem url hu)) hf
  | case6 visited found url rest hlt hvis v1 status ctype anchors hget h200
      hhtml f1 r1 ih =>
    intro hq hf
    rw [crawl_loop]
    simp only [if_pos hlt, if_neg hvis, hget, if_neg h200, if_neg hhtml]
    apply ih
    · intro u hu
      rcases mem_foldl_enqueue netloc joinUrl domain url (url :: visited)
          anchors rest u hu with h1 | h1
      · exact hq u (List.mem_cons_of_mem url h1)
      · exact h1
    · intro u hu
      rcases List.mem_append.mp hu with h1 | h1
      · exact hf u h1
      · rw [List.mem_singleton.mp h1]
        exact hq url (List.mem_cons_self url rest)
  | case7 visited found url rest hlt =>
    intro _ hf
    rw [crawl_loop]
    simp only [if_neg hlt]
    exact hf

theorem crawl_loop_nodup (get : String → CrawlFetch) (domain : String)
    (netloc : String → String) (joinUrl : String → String → String)
    (maxPages : Nat) :
    ∀ (visited toVisit found : List String),
      found.Nodup → (∀ u ∈ found, u ∈ visited) →
      (crawl_loop get domain netloc joinUrl maxPages visited toVisit
          found).Nodup := by
  intro visited toVisit found
  induction visited, toVisit, found using crawl_loop.induct get domain netloc
      joinUrl maxPages with
  | case1 visited found =>
    intro hnd _
    rw [crawl_loop]
    exact hnd
  | case2 visited found url rest hlt hvis ih =>
    intro hnd hsub
    rw [crawl_loop]
    simp only [if_pos hlt, if_pos hvis]
    exact ih hnd hsub
  | case3 visited found url rest hlt hvis v1 hget ih =>
    intro hnd hsub
    rw [crawl_loop]
    simp only [if_pos hlt, if_neg hvis, hget]
    exact ih hnd (fun u hu => List.mem_cons_of_mem url (hsub u hu))
  | case4 visited found url rest hlt hvis v1 status ctype anchors hget h200 ih =>
    intro hnd hsub
    rw [crawl_loop]
    simp only [if_pos hlt, if_neg hvis, hget, if_pos h200]
    exact ih hnd (fun u hu => List.mem_cons_of_mem url (hsub u hu))
  | case5 visited found url rest hlt hvis v1 status ctype anchors hget h200
      hhtml ih =>
    intro hnd hsub
    rw [crawl_loop]
    simp only [if_pos hlt, if_neg hvis, hget, if_neg h200, if_pos hhtml]
    exact ih hnd (fun u hu => List.mem_cons_of_mem url (hsub u hu))
  | case6 visited found url rest hlt hvis v1 status ctype anchors hget h200
      hhtml f1 r1 ih =>
    intro hnd hsub
    rw [crawl_loop]
    simp only [if_pos hlt, if_neg hvis, hget, if_neg h200, if_neg hhtml]
    apply ih
    · rw [List.nodup_append]
      refine ⟨hnd, List.nodup_singleton url, ?_⟩
      intro u hu hu1
      rw [List.mem_singleton.mp hu1] at hu
      exact hvis (hsub url hu)
    · intro u hu
      rcases List.mem_append.mp hu with h1 | h1
      · exact List.mem_cons_of_mem url (hsub u h1)
      · rw [List.mem_singleton.mp h1]
        exact List.mem_cons_self url visited
  | case7 visited found url rest hlt =>
    intro hnd _
    rw [crawl_loop]
    simp only [if_neg hlt]
    exact hnd

/-! ## Fallback Crawler claims -/

/-- C6: every page found by `crawl_site` has the start URL's host
(cross-domain links are never fetched), the found-page sequence contains
no duplicate URL, and the crawl is deterministic: two runs against the
same static site (oracles agreeing on every URL) return the identical
sequence in the identical order. -/
theorem claim6_crawler_invariants (get : String → CrawlFetch)
    (netloc : String → String) (joinUrl : String → String → String)
    (start_url : String) (maxPages : Nat) :
    (∀ u ∈ crawl_site get netloc joinUrl start_url maxPages,
        netloc u = netloc start_url)
    ∧ (crawl_site get netloc joinUrl start_url maxPages).Nodup
    ∧ (∀ get₂ : String → CrawlFetch, (∀ u, get u = get₂ u) →
        crawl_site get netloc joinUrl start_url maxPages
          = crawl_site get₂ netloc joinUrl start_url maxPages) := by
  refine ⟨?_, ?_, ?_⟩
  · exact crawl_loop_netloc get (netloc start_url) netloc joinUrl maxPages
      [] [start_url] []
      (fun u hu => by rw [List.mem_singleton.mp hu])
      (fun u hu => absurd hu (List.not_mem_nil u))
  · exact crawl_loop_nodup get (netloc start_url) netloc joinUrl maxPages
      [] [start_url] [] List.nodup_nil
      (fun u hu => absurd hu (List.not_mem_nil u))
  · intro get₂ hagree
    have : get = get₂ := funext hagree
    rw [this]

/-- Witness for C6 on a concrete two-page site with a cross-domain link
and a revisiting link. -/
theorem claim6_crawler_invariants_witness :
    (∀ u ∈ crawl_site
        (fun u =>
          if u = "http://h/" then
            CrawlFetch.ok 200 "text/html"
              [some "http://h/a", some "http://other/x"]
          else if u = "http://h/a" then
            CrawlFetch.ok 200 "text/html" [some "http://h/"]
          else CrawlFetch.failed)
        (fun u => if pyStartsWith u "http://h/" then "h" else "o")
        (fun _ l => l) "http://h/" 100,
      (fun u => if pyStartsWith u "http://h/" then "h" else "o") u
        = (fun u => if pyStartsWith u "http://h/" then "h" else "o")
            "http://h/")
    ∧ (crawl_site
        (fun u =>
          if u = "http://h/" then
            CrawlFetch.ok 200 "text/html"
              [some "http://h/a", some "http://other/x"]
          else if u = "http://h/a" then
            CrawlFetch.ok 200 "text/html" [some "http://h/"]
          else CrawlFetch.failed)
        (fun u => if pyStartsWith u "http://h/" then "h" else "o")
        (fun _ l => l) "http://h/" 100).Nodup
    ∧ crawl_site
        (fun u =>
          if u = "http://h/" then
            CrawlFetch.ok 200 "text/html"
              [some "http://h/a", some "http://other/x"]
          else if u = "http://h/a" then
            CrawlFetch.ok 200 "text/html" [some "http://h/"]
          else CrawlFetch.failed)
        (fun u => if pyStartsWith u "http://h/" then "h" else "o")
        (fun _ l => l) "http://h/" 100
      = crawl_site
        (fun u =>
          if u = "http://h/" then
            CrawlFetch.ok 200 "text/html"
              [some "http://h/a", some "http://other/x"]
          else if u = "http://h/a" then
            CrawlFetch.ok 200 "text/html" [some "http://h/"]
          else CrawlFetch.failed)
        (fun u => if pyStartsWith u "http://h/" then "h" else "o")
        (fun _ l => l) "http://h/" 100 :=
  ⟨(claim6_crawler_invariants _ _ _ _ _).1,
   (claim6_crawler_invariants _ _ _ _ _).2.1,
   (claim6_crawler_invariants _ _ _ _ _).2.2 _ (fun _ => rfl)⟩

/-- C7: with `max_pages = 0` the crawler returns the empty sequence at
once: the loop guard `len(found_pages) < max_pages` is false before the
first iteration, so not even the start URL is fetched (the result is
empty for every fetch oracle). -/
theorem claim7_max_pages_zero (get : String → CrawlFetch)
    (netloc : String → String) (joinUrl : String → String → String)
    (start_url : String) :
    crawl_site get netloc joinUrl start_url 0 = [] := by
  rw [crawl_site, crawl_loop]
  simp

/-! ## Concurrency Orchestrator lemmas -/

theorem lookup_of_mem_of_nodup_keys {α : Type} :
    ∀ (l : List (Nat × α)) (k : Nat) (v : α),
      (l.map Prod.fst).Nodup → (k, v) ∈ l → l.lookup k = some v := by
  intro l
  induction l with
  | nil => intro k v _ hm; exact absurd hm (List.not_mem_nil _)
  | cons x rest ih =>
    intro k v hnd hm
    obtain ⟨k', v'⟩ := x
    rw [List.map_cons] at hnd
    have hnd' := List.nodup_cons.mp hnd
    rw [List.lookup_cons]
    cases hkk : k == k' with
    | true =>
      have hk : k = k' := by simpa using hkk
      rcases List.mem_cons.mp hm with h1 | h1
      · simp only [Prod.mk.injEq] at h1
        rw [h1.2]
      · exfalso
        apply hnd'.1
        rw [← hk]
        exact List.mem_map.mpr ⟨(k, v), h1, rfl⟩
    | false =>
      rcases List.mem_cons.mp hm with h1 | h1
      · simp only [Prod.mk.injEq] at h1
        rw [h1.1] at hkk
        simp at hkk
      · exact ih k v hnd'.2 h1

theorem lookup_some_mem {α : Type} :
    ∀ (l : List (Nat × α)) (k : Nat) (v : α),
      l.lookup k = some v → (k, v) ∈ l := by
  intro l
  induction l with
  | nil => intro k v h; simp [List.lookup] at h
  | cons x rest ih =>
    intro k v h
    obtain ⟨k', v'⟩ := x
    rw [List.lookup_cons] at h
    cases hkk : k == k' with
    | true =>
      rw [hkk] at h
      simp only [Option.some.injEq] at h
      have hk : k = k' := by simpa using hkk
      rw [hk, h]
      exact List.mem_cons_self _ _
    | false =>
      rw [hkk] at h
      exact List.mem_cons_of_mem _ (ih k v h)

theorem lookup_none_of_not_key {α : Type} :
    ∀ (l : List (Nat × α)) (k : Nat),
      k ∉ l.map Prod.fst → l.lookup k = none := by
  intro l
  induction l with
  | nil => intro k _; rfl
  | cons x rest ih =>
    intro k hk
    obtain ⟨k', v'⟩ := x
    simp only [List.map_cons, List.mem_cons, not_or] at hk
    rw [List.lookup_cons]
    have : (k == k') = false := by
      simpa using hk.1
    rw [this]
    exact ih k hk.2

theorem lookup_eq_of_perm {α : Type} {l₁ l₂ : List (Nat × α)}
    (hp : l₁.Perm l₂) (hnd : (l₂.map Prod.fst).Nodup) (k : Nat) :
    l₁.lookup k = l₂.lookup k := by
  cases hmem : l₂.lookup k with
  | some v =>
    have hm2 : (k, v) ∈ l₂ := lookup_some_mem l₂ k v hmem
    have hnd1 : (l₁.map Prod.fst).Nodup :=
      ((hp.map Prod.fst).nodup_iff).mpr hnd
    exact lookup_of_mem_of_nodup_keys l₁ k v hnd1 (hp.mem_iff.mpr hm2)
  | none =>
    have hk2 : k ∉ l₂.map Prod.fst := by
      intro hk
      obtain ⟨⟨k0, v0⟩, hm0, hf0⟩ := List.mem_map.mp hk
      dsimp at hf0
      rw [hf0] at hm0
      rw [lookup_of_mem_of_nodup_keys l₂ k v0 hnd hm0] at hmem
      exact Option.noConfusion hmem
    have hk1 : k ∉ l₁.map Prod.fst :=
      fun hc => hk2 ((hp.map Prod.fst).mem_iff.mp hc)
    exact lookup_none_of_not_key l₁ k hk1

theorem tasksFrom_key_ge {α : Type} :
    ∀ (xs : List α) (i k : Nat),
      k ∈ (tasksFrom i xs).map Prod.fst → i ≤ k := by
  intro xs
  induction xs with
  | nil => intro i k hk; simp [tasksFrom] at hk
  | cons x rest ih =>
    intro i k hk
    simp only [tasksFrom, List.map_cons, List.mem_cons] at hk
    rcases hk with h1 | h1
    · omega
    · have := ih (i + 1) k h1
      omega

theorem tasksFrom_keys_nodup {α : Type} :
    ∀ (xs : List α) (i : Nat), ((tasksFrom i xs).map Prod.fst).Nodup := by
  intro xs
  induction xs with
  | nil => intro i; simp [tasksFrom]
  | cons x rest ih =>
    intro i
    simp only [tasksFrom, List.map_cons]
    rw [List.nodup_cons]
    refine ⟨?_, ih (i + 1)⟩
    intro hc
    have := tasksFrom_key_ge rest (i + 1) i hc
    omega

theorem poolYield_agree {α : Type} :
    ∀ (n i : Nat) (c₁ c₂ : List (Nat × α)),
      (∀ k, i ≤ k → c₁.lookup k = c₂.lookup k) →
      poolYield c₁ i n = poolYield c₂ i n := by
  intro n
  induction n with
  | zero => intro i c₁ c₂ _; rfl
  | succ n ih =>
    intro i c₁ c₂ h
    rw [poolYield, poolYield, h i (Nat.le_refl i),
      ih (i + 1) c₁ c₂ (fun k hk => h k (by omega))]

theorem poolYield_tasksFrom {α : Type} :
    ∀ (xs : List α) (i : Nat),
      poolYield (tasksFrom i xs) i xs.length = some xs := by
  intro xs
  induction xs with
  | nil => intro i; rfl
  | cons x rest ih =>
    intro i
    rw [List.length_cons, poolYield]
    have hl : (tasksFrom i (x :: rest)).lookup i = some x := by
      rw [tasksFrom, List.lookup_cons]
      simp
    rw [hl]
    have hagree : poolYield (tasksFrom i (x :: rest)) (i + 1) rest.length
        = poolYield (tasksFrom (i + 1) rest) (i + 1) rest.length := by
      apply poolYield_agree
      intro k hk
      rw [tasksFrom, List.lookup_cons]
      have : (k == i) = false := by
        simp only [beq_eq_false_iff_ne, ne_eq]
        omega
      rw [this]
    rw [hagree, ih (i + 1)]

/-! ## Concurrency Orchestrator claim -/

/-- C8: whatever order the pool's tasks complete in (`completed` is any
permutation of the indexed per-page results), `executor.map` yields
results in input order, so the aggregated findings equal the flat
concatenation of the `check_links` result of each page in the page
list's order — the concurrent run refines the sequential map. -/
theorem claim8_pool_preserves_input_order
    (joinUrl : String → String → String) (head : String → HeadResult)
    (world : String → PageFetch) (pages : List String)
    (completed : List (Nat × List Finding))
    (hperm : completed.Perm (tasksFrom 0 (pages.map
      (fun p => (check_links joinUrl head p (world p)).1)))) :
    run_all completed pages.length
      = some (run_all_sequential
          (fun p => (check_links joinUrl head p (world p)).1) pages) := by
  have hlen : pages.length
      = (pages.map (fun p => (check_links joinUrl head p (world p)).1)).length := by
    rw [List.length_map]
  have hagree : ∀ k, 0 ≤ k → completed.lookup k
      = (tasksFrom 0 (pages.map
          (fun p => (check_links joinUrl head p (world p)).1))).lookup k :=
    fun k _ => lookup_eq_of_perm hperm (tasksFrom_keys_nodup _ 0) k
  rw [run_all, hlen,
    poolYield_agree _ 0 completed _ hagree,
    poolYield_tasksFrom]
  rfl

/-- Witness for C8: the two page-check tasks complete out of order, yet
the aggregate lists page one's finding first. -/
theorem claim8_pool_preserves_input_order_witness :
    run_all [(1, []),
        (0, [⟨Code.http 404, "http://p/", "http://x/m.png", some 2⟩])] 2
      = some (run_all_sequential
          (fun p => (check_links (fun _ l => l)
            (fun _ => HeadResult.ok 404 2) p
            (if p = "http://p/" then
              PageFetch.fetched 200
                [⟨TagName.img, none, none, some "http://x/m.png"⟩]
             else PageFetch.failed)).1)
          ["http://p/", "http://q/"]) :=
  claim8_pool_preserves_input_order (fun _ l => l)
    (fun _ => HeadResult.ok 404 2)
    (fun p =>
      if p = "http://p/" then
        PageFetch.fetched 200
          [⟨TagName.img, none, none, some "http://x/m.png"⟩]
      else PageFetch.failed)
    ["http://p/", "http://q/"]
    [(1, []), (0, [⟨Code.http 404, "http://p/", "http://x/m.png", some 2⟩])]
    (by decide)

end LinkChecker
